import Mathlib

/-!
# JustDetox — verification of the policy resolver and time-tracking engine

A shallow embedding of the JustDetox browser extension's core modules:

* `src/core/match.ts` (mirrored in `src/shared/storage.ts`) — hostname
  normalization and matching (`normalizeHostname`, `domainCovers`,
  `matchesAny`, `sumUsageUnder`);
* `src/core/policy.ts` — `resolveEffectivePolicy`, `computeBlockedState`,
  `resolveUsedSeconds`;
* `src/background/lockedIn.ts` — the tracker (`accumulateTime`,
  `flushCurrent`, `handleAlarmTick`) and `checkLockedInExpiry`;
* `src/core/storage.ts` — `isWindowExpired`;
* `src/background/messages.ts` — `handleCheckUrl`.

Modelling conventions:

* A JavaScript string is modelled as its list of code points, `JStr := List
  Nat`. `trim`, `toLowerCase` and the `/\.$/` replace are modelled over code
  points (ASCII case mapping; the JS whitespace set for `trim`).
* Every JavaScript number is modelled as a rational (`ℚ`): timestamps
  (Unix ms), seconds, minutes.  `Date.now()` becomes an explicit `now`
  argument threaded to each function that calls it.
* A JS object used as a map (`UsageMap`) is an association list with unique
  keys in insertion order; spread-update (`{...m, [k]: v}`) replaces the
  entry in place when present and appends otherwise.
* JS truthiness on optional strings (`policy.configuredDomain`,
  `session.activeDomain`, …) is modelled by `truthyStr`: a `some` value is
  truthy iff it is a non-empty string.
* Asynchronous storage round-trips are flattened into explicit state
  passing: each handler takes the current `Settings` / `UsageMap` /
  `TrackerSession` and returns the updated values it writes back.
-/

set_option autoImplicit false

namespace JustDetox

/-- A JavaScript string, as its list of code points. -/
abbrev JStr : Type := List Nat

/-- Embed a Lean string literal as a `JStr` (used for concrete inputs). -/
def js (s : String) : JStr := s.data.map Char.toNat

/-- The JS `String.prototype.trim` whitespace set (WhiteSpace ∪ LineTerminator),
by code point. -/
def isJsWs (n : Nat) : Bool :=
  decide (n = 9 ∨ n = 10 ∨ n = 11 ∨ n = 12 ∨ n = 13 ∨ n = 32 ∨ n = 160 ∨
    n = 5760 ∨ (8192 ≤ n ∧ n ≤ 8202) ∨ n = 8232 ∨ n = 8233 ∨ n = 8239 ∨
    n = 8287 ∨ n = 12288 ∨ n = 65279)

/-- `String.prototype.toLowerCase` on one code point (ASCII case mapping:
`A`–`Z` map to `a`–`z`, everything else is unchanged). -/
def lowerCode (n : Nat) : Nat :=
  if 65 ≤ n ∧ n ≤ 90 then n + 32 else n

/-- `raw.trim()`: drop JS whitespace from both ends. -/
def jsTrim (s : JStr) : JStr :=
  ((s.dropWhile isJsWs).reverse.dropWhile isJsWs).reverse

/-- `raw.toLowerCase()` (ASCII case mapping). -/
def jsToLower (s : JStr) : JStr := s.map lowerCode

/-- `raw.replace(/\.$/, "")`: strip one trailing `"."` code point (46). -/
def stripTrailingDot (s : JStr) : JStr :=
  if s.getLast? = some 46 then s.dropLast else s

/-- `normalizeHostname` (src/core/match.ts):
`raw.trim().toLowerCase().replace(/\.$/, "")`. -/
def normalizeHostname (raw : JStr) : JStr :=
  stripTrailingDot (jsToLower (jsTrim raw))

/-- `domainCovers` (src/core/match.ts):
`pageHost === configuredHost || pageHost.endsWith("." + configuredHost)`. -/
def domainCovers (pageHost configuredHost : JStr) : Bool :=
  if pageHost = configuredHost then true
  else (46 :: configuredHost).isSuffixOf pageHost

/-- `matchesAny` (src/core/match.ts): the hostname (normalized internally)
matches some entry of `domains` via `domainCovers`. -/
def matchesAny (hostname : JStr) (domains : List JStr) : Bool :=
  let norm := normalizeHostname hostname
  domains.any fun d => domainCovers norm (normalizeHostname d)

-- ── Data model (src/core/types.ts) ──────────────────────────────────────────

/-- `RuleMode`: `"block" | "limit"`. -/
inductive RuleMode : Type
  | block
  | limit
  deriving DecidableEq, Repr

/-- `DomainUsage`: usage record for one domain in the current reset window. -/
structure DomainUsage : Type where
  activeSeconds : ℚ
  lastUpdated : ℚ
  windowStartTs : ℚ
  deriving DecidableEq, Repr

/-- `UsageMap`: JS object keyed by hostname, as an association list with
unique keys in insertion order. -/
abbrev UsageMap : Type := List (JStr × DomainUsage)

/-- `usage[domain]`: first (unique) entry with the given key. -/
def umLookup (usage : UsageMap) (domain : JStr) : Option DomainUsage :=
  (usage.find? fun kv => kv.1 = domain).map (·.2)

/-- `{...usage, [domain]: v}`: replace in place when the key is present
(JS objects keep the original key position), append otherwise. -/
def umSet (usage : UsageMap) (domain : JStr) (v : DomainUsage) : UsageMap :=
  match usage with
  | [] => [(domain, v)]
  | kv :: rest =>
    if kv.1 = domain then (domain, v) :: rest
    else kv :: umSet rest domain v

/-- `sumUsageUnder` (src/core/match.ts): sum `activeSeconds` over every usage
entry whose key falls under `configuredDomain`. -/
def sumUsageUnder (configuredDomain : JStr) (usage : UsageMap) : ℚ :=
  let norm := normalizeHostname configuredDomain
  usage.foldl
    (fun total kv =>
      if domainCovers (normalizeHostname kv.1) norm then total + kv.2.activeSeconds
      else total)
    0

/-- `SiteRule`. -/
structure SiteRule : Type where
  domain : JStr
  mode : RuleMode
  limitMinutes : Option ℚ := none
  enabled : Bool
  deriving DecidableEq, Repr

/-- `SiteGroup`. -/
structure SiteGroup : Type where
  id : JStr
  name : JStr
  domains : List JStr
  mode : RuleMode
  limitMinutes : Option ℚ := none
  enabled : Bool
  deriving DecidableEq, Repr

/-- `GlobalDefaults`. -/
structure GlobalDefaults : Type where
  mode : Option RuleMode := none
  limitMinutes : Option ℚ := none
  deriving DecidableEq, Repr

/-- `ResetWindowConfig`. -/
structure ResetWindowConfig : Type where
  intervalHours : ℚ
  deriving DecidableEq, Repr

/-- `LockedInSession`. -/
structure LockedInSession : Type where
  active : Bool
  startTs : ℚ
  endTs : ℚ
  allowedDomains : List JStr
  sourceGroupId : Option JStr := none
  deriving DecidableEq, Repr

/-- `Settings` (the fields read by the embedded functions; the UI-only
`version`, `friction` and `protectedGate` fields are elided — nothing in the
policy resolver or the tracker reads them). -/
structure Settings : Type where
  disabled : Bool
  siteRules : List SiteRule
  groups : List SiteGroup
  globalBlockList : List JStr
  globalDefaults : Option GlobalDefaults := none
  resetWindow : ResetWindowConfig
  lockedInSession : Option LockedInSession := none
  deriving DecidableEq, Repr

/-- JS truthiness of an optional string: `undefined` and `""` are falsy. -/
def truthyStr (o : Option JStr) : Bool :=
  match o with
  | some s => !s.isEmpty
  | none => false

-- ── Policy resolver (src/core/policy.ts) ────────────────────────────────────

/-- Block messages (src/core/policy.ts). -/
def MSG_HARD_BLOCK : JStr := js "not right now, lock back in"

/-- Shown when the time limit for the current window has been exhausted. -/
def MSG_TIME_UP : JStr := js "no more, lock back in"

/-- Shown when a domain is outside the active Locked In session's allow list. -/
def MSG_LOCKED_IN : JStr := js "Not part of your session. Stay locked in."

/-- `PolicyReason`. -/
inductive PolicyReason : Type
  | siteRule
  | group
  | globalBlockList
  | globalDefaults
  deriving DecidableEq, Repr

/-- `EffectivePolicy`. -/
structure EffectivePolicy : Type where
  mode : RuleMode
  limitSeconds : Option ℚ := none
  reason : PolicyReason
  configuredDomain : Option JStr := none
  groupId : Option JStr := none
  deriving DecidableEq, Repr

/-- `BlockedState`. -/
structure BlockedState : Type where
  blocked : Bool
  message : Option JStr := none
  mode : Option RuleMode := none
  remainingSeconds : Option ℚ := none
  lockedIn : Option Bool := none
  deriving DecidableEq, Repr

/-- The `for (const rule of settings.siteRules)` loop of
`resolveEffectivePolicy`: skip disabled rules, skip rules whose domain does
not cover the host, return the policy of the first remaining rule. -/
def resolveSiteRules (host : JStr) : List SiteRule → Option EffectivePolicy
  | [] => none
  | rule :: rest =>
    if rule.enabled = false then resolveSiteRules host rest
    else if domainCovers host (normalizeHostname rule.domain) = false then
      resolveSiteRules host rest
    else
      some
        { mode := rule.mode
          limitSeconds :=
            if rule.mode = RuleMode.limit then some ((rule.limitMinutes.getD 0) * 60)
            else none
          reason := PolicyReason.siteRule
          configuredDomain := some rule.domain }

/-- The `for (const group of settings.groups)` loop of
`resolveEffectivePolicy`. -/
def resolveGroups (host : JStr) : List SiteGroup → Option EffectivePolicy
  | [] => none
  | group :: rest =>
    if group.enabled = false then resolveGroups host rest
    else if matchesAny host group.domains = false then resolveGroups host rest
    else
      some
        { mode := group.mode
          limitSeconds :=
            if group.mode = RuleMode.limit then some ((group.limitMinutes.getD 0) * 60)
            else none
          reason := PolicyReason.group
          groupId := some group.id }

/-- `resolveEffectivePolicy` (src/core/policy.ts): four tiers, first match
wins — site rules, groups, global block list, global defaults. -/
def resolveEffectivePolicy (hostname : JStr) (settings : Settings) :
    Option EffectivePolicy :=
  let host := normalizeHostname hostname
  match resolveSiteRules host settings.siteRules with
  | some p => some p
  | none =>
  match resolveGroups host settings.groups with
  | some p => some p
  | none =>
  if matchesAny host settings.globalBlockList then
    some { mode := RuleMode.block, reason := PolicyReason.globalBlockList }
  else
  match settings.globalDefaults with
  | some gd =>
    match gd.mode with
    | some mode =>
      some
        { mode := mode
          limitSeconds :=
            if mode = RuleMode.limit then some ((gd.limitMinutes.getD 0) * 60)
            else none
          reason := PolicyReason.globalDefaults }
    | none => none
  | none => none

/-- `resolveUsedSeconds` (src/core/policy.ts): seconds used under a policy.
The `policy.configuredDomain` / `policy.groupId` guards are JS truthiness
tests (a present but empty string is falsy). -/
def resolveUsedSeconds (hostname : JStr) (usage : UsageMap)
    (policy : EffectivePolicy) (settings : Settings) : ℚ :=
  if policy.reason = PolicyReason.siteRule ∧ truthyStr policy.configuredDomain = true then
    sumUsageUnder (policy.configuredDomain.getD []) usage
  else
    let fromGroup : Option ℚ :=
      if policy.reason = PolicyReason.group ∧ truthyStr policy.groupId = true then
        (settings.groups.find? fun g => g.id = policy.groupId.getD []).map
          fun group => group.domains.foldl (fun sum d => sum + sumUsageUnder d usage) 0
      else none
    match fromGroup with
    | some v => v
    | none => ((umLookup usage (normalizeHostname hostname)).map (·.activeSeconds)).getD 0

/-- The body of `computeBlockedState` after the Locked In session check
(src/core/policy.ts lines 173–189). -/
def blockedStateFromRules (hostname : JStr) (usage : UsageMap)
    (settings : Settings) : BlockedState :=
  match resolveEffectivePolicy hostname settings with
  | none => { blocked := false }
  | some policy =>
    match policy.mode with
    | RuleMode.block =>
      { blocked := true, message := some MSG_HARD_BLOCK, mode := some RuleMode.block }
    | RuleMode.limit =>
      let limitSeconds := policy.limitSeconds.getD 0
      let usedSeconds := resolveUsedSeconds hostname usage policy settings
      let remaining := max 0 (limitSeconds - usedSeconds)
      if remaining ≤ 0 then
        { blocked := true, message := some MSG_TIME_UP, mode := some RuleMode.limit,
          remainingSeconds := some 0 }
      else
        { blocked := false, mode := some RuleMode.limit, remainingSeconds := some remaining }

/-- `computeBlockedState` (src/core/policy.ts). The session check reads
`Date.now()`, passed here as the explicit `now` argument. -/
def computeBlockedState (hostname : JStr) (usage : UsageMap)
    (settings : Settings) (now : ℚ) : BlockedState :=
  match settings.lockedInSession with
  | some session =>
    if session.active = true ∧ now < session.endTs then
      let host := normalizeHostname hostname
      let isAllowed :=
        session.allowedDomains.any fun d => domainCovers host (normalizeHostname d)
      if isAllowed then { blocked := false }
      else
        { blocked := true, message := some MSG_LOCKED_IN, mode := some RuleMode.block,
          lockedIn := some true }
    else blockedStateFromRules hostname usage settings
  | none => blockedStateFromRules hostname usage settings

-- ── Background message handler (src/background/messages.ts) ─────────────────

/-- `CheckUrlResponse` (wire format of the CHECK_URL reply). -/
structure CheckUrlResponse : Type where
  blocked : Bool
  mode : Option JStr := none
  remainingSeconds : Option ℚ := none
  message : Option JStr := none
  deriving DecidableEq, Repr

/-- `handleCheckUrl` (src/background/messages.ts): the public query behind
CHECK_URL. Reads settings and usage from the store (passed explicitly),
short-circuits on the master kill-switch, otherwise maps
`computeBlockedState` into the wire format (`"limit"` becomes
`"time-limit"`). -/
def handleCheckUrl (hostname : JStr) (usage : UsageMap) (settings : Settings)
    (now : ℚ) : CheckUrlResponse :=
  if settings.disabled = true then { blocked := false }
  else
    let state := computeBlockedState hostname usage settings now
    { blocked := state.blocked
      mode := state.mode.map fun m =>
        match m with
        | RuleMode.limit => js "time-limit"
        | RuleMode.block => js "block"
      remainingSeconds := state.remainingSeconds
      message := state.message }

-- ── Locked In expiry (src/background/lockedIn.ts) ───────────────────────────

/-- `checkLockedInExpiry` (src/background/lockedIn.ts): when the active
session's `endTs` has passed, flip `active` to false; returns the settings
written back to the store (unchanged when nothing expires). -/
def checkLockedInExpiry (settings : Settings) (now : ℚ) : Settings :=
  match settings.lockedInSession with
  | none => settings
  | some session =>
    if session.active = false then settings
    else if now < session.endTs then settings
    else { settings with lockedInSession := some { session with active := false } }

-- ── Time tracking engine (src/background/tracker.ts) ────────────────────────

/-- `isWindowExpired` (src/core/storage.ts): the tracking window for
`domain` has expired when `now - windowStartTs >= intervalHours * 3_600_000`.
`Date.now()` is the explicit `now` argument. -/
def isWindowExpired (usage : UsageMap) (domain : JStr) (intervalHours : ℚ)
    (now : ℚ) : Bool :=
  match umLookup usage domain with
  | none => false
  | some record =>
    let windowMs := intervalHours * 3600000
    decide (now - record.windowStartTs ≥ windowMs)

/-- `accumulateTime` (src/background/tracker.ts): add `elapsedSeconds` to
`domain`'s usage record, resetting the record first when no record exists or
its window has expired; returns the usage map written back. -/
def accumulateTime (settings : Settings) (usage : UsageMap) (now : ℚ)
    (domain : JStr) (elapsedSeconds : ℚ) : UsageMap :=
  if elapsedSeconds ≤ 0 then usage
  else
    let intervalHours := settings.resetWindow.intervalHours
    let existing := umLookup usage domain
    let windowExpired :=
      existing.isSome && isWindowExpired usage domain intervalHours now
    let base : DomainUsage :=
      if existing.isNone || windowExpired then
        { activeSeconds := 0, lastUpdated := now, windowStartTs := now }
      else existing.getD { activeSeconds := 0, lastUpdated := now, windowStartTs := now }
    umSet usage domain
      { base with activeSeconds := base.activeSeconds + elapsedSeconds, lastUpdated := now }

/-- `TrackerSession` (src/background/tracker.ts): the ephemeral tracker
state persisted in `chrome.storage.session`. -/
structure TrackerSession : Type where
  activeDomain : Option JStr
  lastFlushTs : ℚ
  deriving DecidableEq, Repr

/-- Maximum milliseconds counted in a single flush (`FLUSH_CAP_MS`). -/
def FLUSH_CAP_MS : ℚ := 90000

/-- `flushCurrent` (src/background/tracker.ts): credit the capped elapsed
time since `lastFlushTs` to the active domain. Does not update
`lastFlushTs`. The `!session.activeDomain` guard is a JS truthiness test. -/
def flushCurrent (session : TrackerSession) (settings : Settings)
    (usage : UsageMap) (now : ℚ) : UsageMap :=
  if truthyStr session.activeDomain = false ∨ session.lastFlushTs = 0 then usage
  else
    let rawElapsed := now - session.lastFlushTs
    if rawElapsed ≤ 0 then usage
    else
      let capped := min rawElapsed FLUSH_CAP_MS
      accumulateTime settings usage now (session.activeDomain.getD []) (capped / 1000)

/-- `handleAlarmTick` (src/background/tracker.ts): flush the current domain,
rebase `lastFlushTs` to `now` when a domain is active, then run the Locked
In expiry check. Returns the tracker session, usage map and settings as
written back to their stores. -/
def handleAlarmTick (session : TrackerSession) (settings : Settings)
    (usage : UsageMap) (now : ℚ) : TrackerSession × UsageMap × Settings :=
  let usage' := flushCurrent session settings usage now
  let session' :=
    if truthyStr session.activeDomain = true then { session with lastFlushTs := now }
    else session
  let settings' := checkLockedInExpiry settings now
  (session', usage', settings')

/-- `switchActiveDomain` (src/background/tracker.ts): flush the current
domain, then switch to `newDomain` (`null` when idle) and rebase or clear
`lastFlushTs`. This is the focus-change entry point of the engine. -/
def switchActiveDomain (session : TrackerSession) (settings : Settings)
    (usage : UsageMap) (now : ℚ) (newDomain : Option JStr) :
    TrackerSession × UsageMap :=
  let usage' := flushCurrent session settings usage now
  ({ activeDomain := newDomain,
     lastFlushTs := if newDomain.isSome then now else 0 }, usage')

-- ── Derived notions used by the theorems ────────────────────────────────────

/-- The `session?.active && Date.now() < session.endTs` guard of
`computeBlockedState`, as a standalone predicate: is a Locked In session
live (active and unexpired) at `now`? -/
def sessionLive (settings : Settings) (now : ℚ) : Bool :=
  match settings.lockedInSession with
  | some session => session.active && decide (now < session.endTs)
  | none => false

-- ── Concrete fixtures for witnesses, scenarios and counterexamples ──────────

/-- Plain settings: no rules, no session, 24-hour reset window. -/
def plainSettings : Settings :=
  { disabled := false, siteRules := [], groups := [], globalBlockList := []
    resetWindow := { intervalHours := 24 } }

/-- Spec Scenario A settings: site rule twitter.com, limit 30 minutes. -/
def scenarioASettings : Settings :=
  { disabled := false
    siteRules :=
      [{ domain := js "twitter.com", mode := RuleMode.limit, limitMinutes := some 30,
         enabled := true }]
    groups := [], globalBlockList := []
    resetWindow := { intervalHours := 24 } }

/-- Spec Scenario A usage: 900 s on twitter.com and 960 s on www.twitter.com. -/
def scenarioAUsage : UsageMap :=
  [ (js "twitter.com", { activeSeconds := 900, lastUpdated := 0, windowStartTs := 0 }),
    (js "www.twitter.com", { activeSeconds := 960, lastUpdated := 0, windowStartTs := 0 }) ]

/-- The policy `resolveEffectivePolicy` yields for Scenario A's rule. -/
def windowPolicyScenarioA : EffectivePolicy :=
  { mode := RuleMode.limit, limitSeconds := some 1800, reason := PolicyReason.siteRule,
    configuredDomain := some (js "twitter.com") }

/-- Settings with a 1-minute limit on x.com and a 24-hour reset window. -/
def windowSettings : Settings :=
  { disabled := false
    siteRules :=
      [{ domain := js "x.com", mode := RuleMode.limit, limitMinutes := some 1,
         enabled := true }]
    groups := [], globalBlockList := []
    resetWindow := { intervalHours := 24 } }

/-- A usage record for x.com whose window started at time 0. -/
def windowUsage : UsageMap :=
  [ (js "x.com", { activeSeconds := 3600, lastUpdated := 0, windowStartTs := 0 }) ]

/-- The policy `resolveEffectivePolicy` yields for x.com under
`windowSettings`. -/
def windowPolicy : EffectivePolicy :=
  { mode := RuleMode.limit, limitSeconds := some 60, reason := PolicyReason.siteRule,
    configuredDomain := some (js "x.com") }

/-- Settings with a live Locked In session (endTs 100) allowing only
docs.com, and no other rules. -/
def sessionSettings : Settings :=
  { disabled := false, siteRules := [], groups := [], globalBlockList := []
    resetWindow := { intervalHours := 24 }
    lockedInSession :=
      some { active := true, startTs := 0, endTs := 100,
             allowedDomains := [js "docs.com"] } }

/-- Settings with the master kill-switch on, a global block on x.com and a
live Locked In session that allows nothing. -/
def killSwitchSettings : Settings :=
  { disabled := true, siteRules := [], groups := []
    globalBlockList := [js "x.com"]
    resetWindow := { intervalHours := 24 }
    lockedInSession :=
      some { active := true, startTs := 0, endTs := 1000000, allowedDomains := [] } }

/-- Tracker session for spec Scenario C: tracking x since time 1000. -/
def tickSession : TrackerSession := { activeDomain := some (js "x"), lastFlushTs := 1000 }

/-- Usage fixture for the accumulate witness: 5 s on x.com, window at 0. -/
def accUsage : UsageMap :=
  [ (js "x.com", { activeSeconds := 5, lastUpdated := 0, windowStartTs := 0 }) ]

/-- Same `activeSeconds` as `accUsage` but different timestamps. -/
def accUsageShifted : UsageMap :=
  [ (js "x.com", { activeSeconds := 5, lastUpdated := 7, windowStartTs := 9 }) ]

-- ═══ Theorems ═══════════════════════════════════════════════════════════════

-- The core rational operations ship `[irreducible]`; re-open them so that the
-- kernel can evaluate the embedded functions on concrete inputs.
unseal Rat.add Rat.sub Rat.mul Rat.inv

-- ── C7: domainCovers is an exact-or-label-boundary-suffix check ─────────────

/-- C7: for every pair of hostnames, `domainCovers pageHost ruleHost` holds
iff `pageHost = ruleHost` or `pageHost` ends with `"." ++ ruleHost` (a
label-boundary suffix check); in particular the four example pairs of the
spec evaluate as stated. -/
theorem domainCovers_characterization (pageHost ruleHost : JStr) :
    (domainCovers pageHost ruleHost = true ↔
      pageHost = ruleHost ∨ ∃ pre : JStr, pageHost = pre ++ 46 :: ruleHost)
    ∧ domainCovers (js "m.youtube.com") (js "youtube.com") = true
    ∧ domainCovers (js "accounts.google.com") (js "google.com") = true
    ∧ domainCovers (js "xnyoutube.com") (js "youtube.com") = false
    ∧ domainCovers (js "youtube.com") (js "m.youtube.com") = false := by
  refine ⟨?_, by decide, by decide, by decide, by decide⟩
  unfold domainCovers
  by_cases hpr : pageHost = ruleHost
  · simp [hpr]
  · simp only [hpr, if_false, List.isSuffixOf_iff_suffix, List.IsSuffix]
    constructor
    · rintro ⟨t, rfl⟩
      exact Or.inr ⟨t, rfl⟩
    · rintro (h | ⟨pre, rfl⟩)
      · exact h.elim
      · exact ⟨pre, rfl⟩

/-- Auxiliary witness for C7: the characterization applied at a concrete
pair, together with the concrete example evaluations it packages. -/
theorem domainCovers_characterization_witness :
    (js "m.youtube.com") = (js "youtube.com") ∨
      ∃ pre : JStr, (js "m.youtube.com") = pre ++ 46 :: (js "youtube.com") :=
  ((domainCovers_characterization (js "m.youtube.com") (js "youtube.com")).1).mp
    (by decide)

-- ── C1: resolveEffectivePolicy evaluates four tiers in precedence order ─────

/-- The site-rule loop returns the policy of the first enabled rule whose
domain covers the host. -/
theorem resolveSiteRules_eq_find? (host : JStr) (rules : List SiteRule) :
    resolveSiteRules host rules =
      (rules.find? fun r => r.enabled && domainCovers host (normalizeHostname r.domain)).map
        fun rule =>
          { mode := rule.mode
            limitSeconds :=
              if rule.mode = RuleMode.limit then some ((rule.limitMinutes.getD 0) * 60)
              else none
            reason := PolicyReason.siteRule
            configuredDomain := some rule.domain } := by
  induction rules with
  | nil => rfl
  | cons r rest ih =>
    cases hr : r.enabled <;>
      cases hc : domainCovers host (normalizeHostname r.domain) <;>
        simp [resolveSiteRules, List.find?_cons, hr, hc, ih]

/-- The group loop returns the policy of the first enabled group with a
covering domain. -/
theorem resolveGroups_eq_find? (host : JStr) (groups : List SiteGroup) :
    resolveGroups host groups =
      (groups.find? fun g => g.enabled && matchesAny host g.domains).map
        fun group =>
          { mode := group.mode
            limitSeconds :=
              if group.mode = RuleMode.limit then some ((group.limitMinutes.getD 0) * 60)
              else none
            reason := PolicyReason.group
            groupId := some group.id } := by
  induction groups with
  | nil => rfl
  | cons g rest ih =>
    cases hg : g.enabled <;>
      cases hm : matchesAny host g.domains <;>
        simp [resolveGroups, List.find?_cons, hg, hm, ih]

/-- C1: for every hostname and settings, `resolveEffectivePolicy` evaluates
the four tiers in strict precedence order — the first enabled site rule whose
domain covers the hostname, else the first enabled group with a covering
domain, else a forced block from the global block list, else the global
defaults — and returns `none` when no tier matches.  Disabled rules and
groups are skipped by the tier's `find?` predicate, so evaluation falls
through to the next tier rather than stopping. -/
theorem resolveEffectivePolicy_tiers (hostname : JStr) (settings : Settings) :
    resolveEffectivePolicy hostname settings =
      (let host := normalizeHostname hostname
      match settings.siteRules.find?
          (fun r => r.enabled && domainCovers host (normalizeHostname r.domain)) with
      | some rule =>
        some
          { mode := rule.mode
            limitSeconds :=
              if rule.mode = RuleMode.limit then some ((rule.limitMinutes.getD 0) * 60)
              else none
            reason := PolicyReason.siteRule
            configuredDomain := some rule.domain }
      | none =>
      match settings.groups.find? (fun g => g.enabled && matchesAny host g.domains) with
      | some group =>
        some
          { mode := group.mode
            limitSeconds :=
              if group.mode = RuleMode.limit then some ((group.limitMinutes.getD 0) * 60)
              else none
            reason := PolicyReason.group
            groupId := some group.id }
      | none =>
      if matchesAny host settings.globalBlockList then
        some { mode := RuleMode.block, reason := PolicyReason.globalBlockList }
      else
      match settings.globalDefaults with
      | some gd =>
        match gd.mode with
        | some mode =>
          some
            { mode := mode
              limitSeconds :=
                if mode = RuleMode.limit then some ((gd.limitMinutes.getD 0) * 60)
                else none
              reason := PolicyReason.globalDefaults }
        | none => none
      | none => none) := by
  unfold resolveEffectivePolicy
  simp only [resolveSiteRules_eq_find?, resolveGroups_eq_find?]
  cases hr : settings.siteRules.find?
      (fun r => r.enabled && domainCovers (normalizeHostname hostname)
        (normalizeHostname r.domain)) <;>
    cases hg : settings.groups.find?
        (fun g => g.enabled && matchesAny (normalizeHostname hostname) g.domains) <;>
      simp [hr, hg]

-- ── C2: a live Locked In session overrides every rule tier ──────────────────

/-- The rule tiers never read `lockedInSession`: dropping the session from
the settings leaves the post-session body unchanged. -/
theorem blockedStateFromRules_lockedIn_irrelevant (hostname : JStr)
    (usage : UsageMap) (settings : Settings) :
    blockedStateFromRules hostname usage { settings with lockedInSession := none } =
      blockedStateFromRules hostname usage settings := rfl

/-- C2: with a stored Locked In session that is active and unexpired
(`now < endTs`), `computeBlockedState` blocks unconditionally when no entry
of `allowedDomains` covers the normalized hostname and passes through
unconditionally when one does — in both cases regardless of every rule tier
in the settings; when the session is inactive or expired it has no effect,
i.e. the result coincides with evaluating the same settings without any
session. -/
theorem computeBlockedState_session_override (hostname : JStr) (usage : UsageMap)
    (settings : Settings) (now : ℚ) (session : LockedInSession)
    (hs : settings.lockedInSession = some session) :
    (session.active = true → now < session.endTs →
      ((session.allowedDomains.any fun d =>
          domainCovers (normalizeHostname hostname) (normalizeHostname d)) = false →
        computeBlockedState hostname usage settings now =
          { blocked := true, message := some MSG_LOCKED_IN, mode := some RuleMode.block,
            lockedIn := some true })
      ∧ ((session.allowedDomains.any fun d =>
          domainCovers (normalizeHostname hostname) (normalizeHostname d)) = true →
        computeBlockedState hostname usage settings now = { blocked := false }))
    ∧ (session.active = false ∨ session.endTs ≤ now →
        computeBlockedState hostname usage settings now =
          computeBlockedState hostname usage
            { settings with lockedInSession := none } now) := by
  constructor
  · intro hact hlt
    constructor
    · intro hnone
      simp [computeBlockedState, hs, hact, hlt, hnone]
    · intro hsome
      simp [computeBlockedState, hs, hact, hlt, hsome]
  · intro hdead
    have hcond : ¬(session.active = true ∧ now < session.endTs) := by
      rcases hdead with h | h
      · exact fun hc => by simp [h] at hc
      · exact fun hc => absurd hc.2 (not_lt.mpr h)
    simp [computeBlockedState, hs, hcond]
    exact (blockedStateFromRules_lockedIn_irrelevant hostname usage settings).symm

/-- Witness for C2 at a live session allowing only docs.com: x.com is
blocked with the Locked In message, docs.com passes through. -/
theorem computeBlockedState_session_override_witness :
    computeBlockedState (js "x.com") [] sessionSettings 0 =
      { blocked := true, message := some MSG_LOCKED_IN, mode := some RuleMode.block,
        lockedIn := some true } ∧
    computeBlockedState (js "docs.com") [] sessionSettings 0 = { blocked := false } :=
  ⟨((computeBlockedState_session_override (js "x.com") [] sessionSettings 0 _ rfl).1
      rfl (by norm_num)).1 (by decide),
   ((computeBlockedState_session_override (js "docs.com") [] sessionSettings 0 _ rfl).1
      rfl (by norm_num)).2 (by decide)⟩

-- ── C9: time-dependence of query ────────────────────────────────────────────

/-- Counterexample to C9: with a live session whose `endTs` lies between the
two evaluation times, two `query` calls with identical settings and usage
and no intervening `reportFocusChange`/`tick` return different results. -/
theorem computeBlockedState_not_time_independent :
    computeBlockedState (js "x.com") [] sessionSettings 0 ≠
      computeBlockedState (js "x.com") [] sessionSettings 100 := by decide

/-- C9 (amended): `computeBlockedState` is a pure function of settings and
usage except through the liveness of the Locked In session: whenever the
session-liveness guard evaluates the same at two times (in particular when
no session is active, or when both times lie on the same side of `endTs`),
the two results are identical. -/
theorem computeBlockedState_time_independent_of_live (hostname : JStr)
    (usage : UsageMap) (settings : Settings) (t1 t2 : ℚ)
    (hlive : sessionLive settings t1 = sessionLive settings t2) :
    computeBlockedState hostname usage settings t1 =
      computeBlockedState hostname usage settings t2 := by
  cases hs : settings.lockedInSession with
  | none => simp [computeBlockedState, hs]
  | some session =>
    simp only [sessionLive, hs] at hlive
    by_cases h1 : session.active = true ∧ t1 < session.endTs <;>
      by_cases h2 : session.active = true ∧ t2 < session.endTs
    · simp [computeBlockedState, hs, h1, h2]
    · exfalso
      apply h2
      have hb : (session.active && decide (t2 < session.endTs)) = true := by
        rw [← hlive]
        simp [h1.1, h1.2]
      simpa using hb
    · exfalso
      apply h1
      have hb : (session.active && decide (t1 < session.endTs)) = true := by
        rw [hlive]
        simp [h2.1, h2.2]
      simpa using hb
    · simp [computeBlockedState, hs, h1, h2]

/-- Witness for the amended C9: with no session at all, evaluation at times
0 and 5 coincides. -/
theorem computeBlockedState_time_independent_of_live_witness :
    computeBlockedState (js "x.com") [] plainSettings 0 =
      computeBlockedState (js "x.com") [] plainSettings 5 :=
  computeBlockedState_time_independent_of_live (js "x.com") [] plainSettings 0 5
    (by decide)

-- ── C10: the master kill-switch lives in the message handler ────────────────

/-- C10: when `settings.disabled` is true the CHECK_URL handler answers
`blocked = false` for every hostname and usage — bypassing every rule tier
and any live Locked In session — because it short-circuits before calling
`computeBlockedState`; and `computeBlockedState` itself never consults
`disabled` (its result is invariant under flipping that flag). -/
theorem handleCheckUrl_killSwitch (hostname : JStr) (usage : UsageMap)
    (settings : Settings) (now : ℚ) :
    (settings.disabled = true →
      handleCheckUrl hostname usage settings now = { blocked := false })
    ∧ ∀ b : Bool,
        computeBlockedState hostname usage { settings with disabled := b } now =
          computeBlockedState hostname usage settings now := by
  constructor
  · intro h
    simp [handleCheckUrl, h]
  · intro b
    rfl

/-- Witness for C10: with the kill-switch on, x.com is not blocked even
though the global block list contains it and a live session excludes it. -/
theorem handleCheckUrl_killSwitch_witness :
    handleCheckUrl (js "x.com") [] killSwitchSettings 0 = { blocked := false } :=
  (handleCheckUrl_killSwitch (js "x.com") [] killSwitchSettings 0).1 rfl

-- ── C4: accumulateTime — monotonicity, lazy reset, no-op on s ≤ 0 ───────────

/-- Looking up the key just written by a spread-update returns the written
record. -/
theorem umLookup_umSet_self (usage : UsageMap) (d : JStr) (v : DomainUsage) :
    umLookup (umSet usage d v) d = some v := by
  induction usage with
  | nil => simp [umSet, umLookup, List.find?]
  | cons kv rest ih =>
    by_cases h : kv.1 = d
    · simp [umSet, h, umLookup, List.find?]
    · simpa [umSet, h, umLookup, List.find?_cons] using ih

/-- C4: accumulating `s > 0` seconds into domain `d` adds exactly `s` to the
existing record's `activeSeconds` when the record exists and its window is
unexpired (a strict increase); when the window has expired
(`now - windowStartTs ≥ intervalHours * 3_600_000`) or no record exists, the
record is reset first and the post-call `activeSeconds` is exactly `s` with
`windowStartTs = now`; accumulating `s ≤ 0` leaves the usage map unchanged. -/
theorem accumulateTime_spec (settings : Settings) (usage : UsageMap) (now : ℚ)
    (d : JStr) (s : ℚ) :
    (s ≤ 0 → accumulateTime settings usage now d s = usage)
    ∧ (∀ e, umLookup usage d = some e → 0 < s →
        now - e.windowStartTs < settings.resetWindow.intervalHours * 3600000 →
        umLookup (accumulateTime settings usage now d s) d =
          some { activeSeconds := e.activeSeconds + s, lastUpdated := now,
                 windowStartTs := e.windowStartTs }
          ∧ e.activeSeconds < e.activeSeconds + s)
    ∧ (0 < s →
        (umLookup usage d = none ∨ ∃ e, umLookup usage d = some e ∧
          settings.resetWindow.intervalHours * 3600000 ≤ now - e.windowStartTs) →
        umLookup (accumulateTime settings usage now d s) d =
          some { activeSeconds := s, lastUpdated := now, windowStartTs := now }) := by
  refine ⟨fun h => by simp [accumulateTime, h], ?_, ?_⟩
  · intro e he hs hwin
    have hnot : ¬s ≤ 0 := not_le.mpr hs
    have hexp : isWindowExpired usage d settings.resetWindow.intervalHours now = false := by
      simp only [isWindowExpired, he]
      simp only [decide_eq_false_iff_not, not_le]
      linarith
    refine ⟨?_, by linarith⟩
    simp [accumulateTime, hnot, he, hexp, umLookup_umSet_self]
  · intro hs hcase
    have hnot : ¬s ≤ 0 := not_le.mpr hs
    rcases hcase with he | ⟨e, he, hwin⟩
    · simp [accumulateTime, hnot, he, umLookup_umSet_self]
    · have hexp : isWindowExpired usage d settings.resetWindow.intervalHours now = true := by
        simp only [isWindowExpired, he]
        simp only [decide_eq_true_eq]
        linarith
      simp [accumulateTime, hnot, he, hexp, umLookup_umSet_self]

/-- Witness for C4: adding 2 s to an unexpired 5 s record for x.com yields
exactly 7 s, a strict increase. -/
theorem accumulateTime_spec_witness :
    umLookup (accumulateTime plainSettings accUsage 1000 (js "x.com") 2) (js "x.com") =
      some { activeSeconds := 5 + 2, lastUpdated := 1000, windowStartTs := 0 }
      ∧ (5 : ℚ) < 5 + 2 :=
  (accumulateTime_spec plainSettings accUsage 1000 (js "x.com") 2).2.1
    { activeSeconds := 5, lastUpdated := 0, windowStartTs := 0 }
    (by decide) (by norm_num) (by norm_num [plainSettings])

-- ── C3: capped flush and tick rebase ────────────────────────────────────────

/-- C3: with a tracked domain (`activeDomain = some d`, non-empty) and a
started clock (`lastFlushTs ≠ 0`), a flush at `now` credits exactly
`min (now - lastFlushTs) FLUSH_CAP_MS` milliseconds (as seconds, via
`accumulateTime`) to `d`, and credits nothing when the elapsed gap is ≤ 0;
a tick rebases `lastFlushTs` to `now` after performing that same flush.
In particular (spec Scenario C) a tick at `lastFlushTs + 150_000` ms credits
exactly 90 s to x and leaves `lastFlushTs = now`, not `lastFlushTs + 60_000`:
the portion of the gap beyond the cap is dropped, never carried forward. -/
theorem flushCurrent_cap_and_tick_rebase (session : TrackerSession)
    (settings : Settings) (usage : UsageMap) (now : ℚ) (d : JStr)
    (hd : session.activeDomain = some d) (hne : d ≠ [])
    (hts : session.lastFlushTs ≠ 0) :
    (0 < now - session.lastFlushTs →
      flushCurrent session settings usage now =
        accumulateTime settings usage now d
          (min (now - session.lastFlushTs) FLUSH_CAP_MS / 1000))
    ∧ (now - session.lastFlushTs ≤ 0 →
        flushCurrent session settings usage now = usage)
    ∧ (handleAlarmTick session settings usage now).1.lastFlushTs = now
    ∧ (handleAlarmTick session settings usage now).2.1 =
        flushCurrent session settings usage now
    ∧ (handleAlarmTick tickSession plainSettings [] 151000).2.1 =
        [(js "x", { activeSeconds := 90, lastUpdated := 151000, windowStartTs := 151000 })]
    ∧ (handleAlarmTick tickSession plainSettings [] 151000).1.lastFlushTs = 151000 := by
  have htr : truthyStr session.activeDomain = true := by
    simp [truthyStr, hd, List.isEmpty_iff, hne]
  refine ⟨?_, ?_, ?_, ?_, by decide, by decide⟩
  · intro hgap
    have h1 : ¬(truthyStr (some d) = false ∨ session.lastFlushTs = 0) := by
      simp [truthyStr, List.isEmpty_iff, hne, hts]
    simp [flushCurrent, hd, h1, not_le.mpr hgap]
  · intro hgap
    by_cases hguard : truthyStr session.activeDomain = false ∨ session.lastFlushTs = 0
    · simp [flushCurrent, hguard]
    · simp [flushCurrent, hguard, hgap]
  · simp [handleAlarmTick, htr]
  · simp [handleAlarmTick]

/-- Witness for C3: the capped-flush equation at the Scenario C input, where
the gap is 150 000 ms and the cap 90 000 ms. -/
theorem flushCurrent_cap_and_tick_rebase_witness :
    flushCurrent tickSession plainSettings [] 151000 =
      accumulateTime plainSettings [] 151000 (js "x")
        (min ((151000 : ℚ) - 1000) FLUSH_CAP_MS / 1000) :=
  (flushCurrent_cap_and_tick_rebase tickSession plainSettings [] 151000 (js "x")
      rfl (by decide) (by norm_num [tickSession])).1 (by norm_num [tickSession])

-- ── C5: usedSeconds aggregation per policy tier ─────────────────────────────

/-- A left fold that adds `f` of each element is the sum of the mapped
list. -/
theorem foldl_add_eq_map_sum (f : JStr → ℚ) (l : List JStr) :
    l.foldl (fun acc dmn => acc + f dmn) 0 = (l.map f).sum := by
  rw [List.sum_eq_foldl, List.foldl_map]

/-- C5: `usedSeconds` is resolved per tier — for a site-rule match the sum
of `activeSeconds` over every usage key covered by the configured domain
(subdomains included); for a group match the sum of `sumUsageUnder` over
every domain of the group (one shared pool); for a global-defaults match the
exact normalized hostname's record only — and a limit-mode policy blocks iff
`max 0 (limitSeconds - usedSeconds) ≤ 0`.  In particular (spec Scenario A)
the 30-minute twitter.com rule with 900 s + 960 s of usage blocks
www.twitter.com. -/
theorem resolveUsedSeconds_spec (hostname : JStr) (usage : UsageMap)
    (policy : EffectivePolicy) (settings : Settings) (now : ℚ) :
    (∀ cd, policy.reason = PolicyReason.siteRule → policy.configuredDomain = some cd →
      cd ≠ [] →
      resolveUsedSeconds hostname usage policy settings = sumUsageUnder cd usage)
    ∧ (∀ gid g, policy.reason = PolicyReason.group → policy.groupId = some gid →
        gid ≠ [] → settings.groups.find? (fun gr => gr.id = gid) = some g →
        resolveUsedSeconds hostname usage policy settings =
          (g.domains.map fun dm => sumUsageUnder dm usage).sum)
    ∧ (policy.reason = PolicyReason.globalDefaults →
        resolveUsedSeconds hostname usage policy settings =
          ((umLookup usage (normalizeHostname hostname)).map (·.activeSeconds)).getD 0)
    ∧ (∀ p, resolveEffectivePolicy hostname settings = some p →
        p.mode = RuleMode.limit → settings.lockedInSession = none →
        ((computeBlockedState hostname usage settings now).blocked = true ↔
          max 0 (p.limitSeconds.getD 0 - resolveUsedSeconds hostname usage p settings) ≤ 0))
    ∧ sumUsageUnder (js "twitter.com") scenarioAUsage = 1860
    ∧ (computeBlockedState (js "www.twitter.com") scenarioAUsage scenarioASettings 0).blocked
        = true := by
  refine ⟨?_, ?_, ?_, ?_, by decide, by decide⟩
  · intro cd hr hcd hne
    simp [resolveUsedSeconds, hr, hcd, truthyStr, List.isEmpty_iff, hne]
  · intro gid g hr hgid hne hfind
    simp [resolveUsedSeconds, hr, hgid, truthyStr, List.isEmpty_iff, hne, hfind,
      foldl_add_eq_map_sum]
  · intro hr
    simp [resolveUsedSeconds, hr]
  · intro p hp hmode hnone
    simp only [computeBlockedState, hnone, blockedStateFromRules, hp, hmode]
    by_cases hrem :
        max 0 (p.limitSeconds.getD 0 - resolveUsedSeconds hostname usage p settings) ≤ 0 <;>
      simp [hrem]

/-- Witness for C5: the site-rule case applied to Scenario A's rule domain;
the shared pool for twitter.com sums both subdomain records. -/
theorem resolveUsedSeconds_spec_witness :
    resolveUsedSeconds (js "www.twitter.com") scenarioAUsage windowPolicyScenarioA
        scenarioASettings =
      sumUsageUnder (js "twitter.com") scenarioAUsage :=
  (resolveUsedSeconds_spec (js "www.twitter.com") scenarioAUsage windowPolicyScenarioA
      scenarioASettings 0).1 (js "twitter.com") rfl rfl (by decide)

-- ── C6: the query path never consults the window-expiry check ───────────────

/-- Counterexample to C6: a usage record for x.com whose 24-hour reset
window expired long ago (window start 0, query at 100 000 000 ms) still
contributes its full 3600 s to `usedSeconds`, so `computeBlockedState`
blocks under the 1-minute limit — whereas the claim says the expired record
contributes nothing (which would leave 60 s of quota and no block). -/
theorem windowExpiry_not_consulted_by_query :
    isWindowExpired windowUsage (js "x.com") windowSettings.resetWindow.intervalHours
        100000000 = true
    ∧ resolveEffectivePolicy (js "x.com") windowSettings = some windowPolicy
    ∧ resolveUsedSeconds (js "x.com") windowUsage windowPolicy windowSettings = 3600
    ∧ (computeBlockedState (js "x.com") windowUsage windowSettings 100000000).blocked
        = true :=
  ⟨by decide, by decide, by decide, by decide⟩

/-- The usage fold behind `sumUsageUnder` only reads each entry's key and
`activeSeconds`. -/
theorem usageFoldl_eq_of_proj (norm : JStr) :
    ∀ (u u' : UsageMap) (init : ℚ),
      u.map (fun kv => (kv.1, kv.2.activeSeconds)) =
        u'.map (fun kv => (kv.1, kv.2.activeSeconds)) →
      u.foldl
          (fun total kv =>
            if domainCovers (normalizeHostname kv.1) norm then total + kv.2.activeSeconds
            else total) init =
        u'.foldl
          (fun total kv =>
            if domainCovers (normalizeHostname kv.1) norm then total + kv.2.activeSeconds
            else total) init := by
  intro u
  induction u with
  | nil =>
    intro u' init h
    cases u' with
    | nil => rfl
    | cons kv' t' => simp at h
  | cons kv t ih =>
    intro u' init h
    cases u' with
    | nil => simp at h
    | cons kv' t' =>
      simp only [List.map_cons, List.cons.injEq, Prod.mk.injEq] at h
      obtain ⟨⟨h1, h2⟩, h3⟩ := h
      simp only [List.foldl_cons]
      rw [h1, h2]
      exact ih t' _ h3

/-- `sumUsageUnder` is invariant under timestamp changes in the usage map. -/
theorem sumUsageUnder_eq_of_proj (cd : JStr) (u u' : UsageMap)
    (h : u.map (fun kv => (kv.1, kv.2.activeSeconds)) =
      u'.map (fun kv => (kv.1, kv.2.activeSeconds))) :
    sumUsageUnder cd u = sumUsageUnder cd u' := by
  simp only [sumUsageUnder]
  exact usageFoldl_eq_of_proj (normalizeHostname cd) u u' 0 h

/-- The `activeSeconds` of a lookup is invariant under timestamp changes. -/
theorem umLookup_activeSeconds_eq_of_proj :
    ∀ (u u' : UsageMap) (k : JStr),
      u.map (fun kv => (kv.1, kv.2.activeSeconds)) =
        u'.map (fun kv => (kv.1, kv.2.activeSeconds)) →
      (umLookup u k).map (·.activeSeconds) = (umLookup u' k).map (·.activeSeconds) := by
  intro u
  induction u with
  | nil =>
    intro u' k h
    cases u' with
    | nil => rfl
    | cons kv' t' => simp at h
  | cons kv t ih =>
    intro u' k h
    cases u' with
    | nil => simp at h
    | cons kv' t' =>
      simp only [List.map_cons, List.cons.injEq, Prod.mk.injEq] at h
      obtain ⟨⟨h1, h2⟩, h3⟩ := h
      by_cases hk : kv.1 = k
      · simp [umLookup, List.find?_cons, hk, h1 ▸ hk, h2, ← h1]
      · have hk' : ¬kv'.1 = k := h1 ▸ hk
        simpa [umLookup, List.find?_cons, hk, hk'] using ih t' k h3

/-- C6 (amended): `computeBlockedState` never invokes the window-expiry
check — its result depends only on the keys and `activeSeconds` of the
usage records, never on `windowStartTs` or `lastUpdated`, so a record whose
reset window has expired keeps contributing its full `activeSeconds` to
`usedSeconds` until the next accumulation resets it. -/
theorem computeBlockedState_ignores_windowStartTs (hostname : JStr)
    (u u' : UsageMap) (settings : Settings) (now : ℚ)
    (h : u.map (fun kv => (kv.1, kv.2.activeSeconds)) =
      u'.map (fun kv => (kv.1, kv.2.activeSeconds))) :
    computeBlockedState hostname u settings now =
      computeBlockedState hostname u' settings now := by
  have hsum : ∀ dm, sumUsageUnder dm u = sumUsageUnder dm u' :=
    fun dm => sumUsageUnder_eq_of_proj dm u u' h
  have hlk : (umLookup u (normalizeHostname hostname)).map (·.activeSeconds) =
      (umLookup u' (normalizeHostname hostname)).map (·.activeSeconds) :=
    umLookup_activeSeconds_eq_of_proj u u' (normalizeHostname hostname) h
  have hused : ∀ p, resolveUsedSeconds hostname u p settings =
      resolveUsedSeconds hostname u' p settings := by
    intro p
    unfold resolveUsedSeconds
    simp only [hsum, hlk]
  have hrules : blockedStateFromRules hostname u settings =
      blockedStateFromRules hostname u' settings := by
    unfold blockedStateFromRules
    simp only [hused]
  unfold computeBlockedState
  cases settings.lockedInSession <;> simp [hrules]

/-- Witness for the amended C6: shifting the timestamps of a record leaves
the query result unchanged. -/
theorem computeBlockedState_ignores_windowStartTs_witness :
    computeBlockedState (js "x.com") accUsage windowSettings 0 =
      computeBlockedState (js "x.com") accUsageShifted windowSettings 0 :=
  computeBlockedState_ignores_windowStartTs (js "x.com") accUsage accUsageShifted
    windowSettings 0 (by decide)

-- ── C8: idempotence of normalizeHostname ────────────────────────────────────

/-- Counterexample to C8: `normalize` strips only one trailing dot, so on
`"a.."` it yields `"a."` and a second application yields `"a"` — not
idempotent. -/
theorem normalizeHostname_not_idempotent :
    normalizeHostname (normalizeHostname (js "a..")) ≠ normalizeHostname (js "a..") := by
  decide

/-- ASCII lowercasing is idempotent on a code point. -/
theorem lowerCode_lowerCode (n : Nat) : lowerCode (lowerCode n) = lowerCode n := by
  simp only [lowerCode]
  split_ifs <;> omega

/-- ASCII lowercasing preserves JS-whitespace-ness (no letter is
whitespace). -/
theorem isJsWs_lowerCode (n : Nat) : isJsWs (lowerCode n) = isJsWs n := by
  by_cases h : 65 ≤ n ∧ n ≤ 90
  · have h1 : isJsWs (n + 32) = false := by
      simp only [isJsWs, decide_eq_false_iff_not]
      omega
    have h2 : isJsWs n = false := by
      simp only [isJsWs, decide_eq_false_iff_not]
      omega
    simp [lowerCode, h, h1, h2]
  · simp [lowerCode, h]

/-- Only the dot lowercases to a dot. -/
theorem lowerCode_eq_dot_iff (n : Nat) : lowerCode n = 46 ↔ n = 46 := by
  simp only [lowerCode]
  split_ifs with h <;> omega

/-- Lowercasing twice is lowercasing once. -/
theorem jsToLower_jsToLower (l : JStr) : jsToLower (jsToLower l) = jsToLower l := by
  simp only [jsToLower, List.map_map]
  exact List.map_congr_left fun a _ => lowerCode_lowerCode a

/-- Lowercasing commutes with stripping a trailing dot. -/
theorem jsToLower_stripTrailingDot (l : JStr) :
    jsToLower (stripTrailingDot l) = stripTrailingDot (jsToLower l) := by
  by_cases h : l.getLast? = some 46
  · have h' : (jsToLower l).getLast? = some 46 := by
      simp [jsToLower, List.getLast?_map, h, lowerCode]
    simp [stripTrailingDot, h, h', jsToLower, List.map_dropLast, lowerCode]
  · have h' : ¬(jsToLower l).getLast? = some 46 := by
      simp only [jsToLower, List.getLast?_map]
      intro hc
      obtain ⟨c, hcl, hlc⟩ := Option.map_eq_some'.mp hc
      refine h ?_
      rw [hcl]
      exact congrArg some ((lowerCode_eq_dot_iff c).mp hlc)
    simp [stripTrailingDot, h, h']

/-- The head of `dropWhile p` fails `p`. -/
theorem dropWhile_head?_not {p : Nat → Bool} :
    ∀ (l : JStr) (c : Nat), (l.dropWhile p).head? = some c → p c = false := by
  intro l
  induction l with
  | nil => intro c hc; simp at hc
  | cons a t ih =>
    intro c hc
    rw [List.dropWhile_cons] at hc
    by_cases ha : p a = true
    · exact ih c (by simpa [ha] using hc)
    · rw [if_neg ha, List.head?_cons, Option.some.injEq] at hc
      subst hc
      exact Bool.not_eq_true _ |>.mp ha

/-- `dropWhile` is the identity when the head (if any) fails `p`. -/
theorem dropWhile_eq_self_of_head {p : Nat → Bool} (l : JStr)
    (h : ∀ c, l.head? = some c → p c = false) : l.dropWhile p = l := by
  cases l with
  | nil => rfl
  | cons a t =>
    rw [List.dropWhile_cons, if_neg]
    simp [h a rfl]

/-- A nonempty list shares its head with any list it is a prefix of. -/
theorem head?_of_isPrefix {l' l : JStr} (hp : l' <+: l) {c : Nat}
    (hc : l'.head? = some c) : l.head? = some c := by
  obtain ⟨t, rfl⟩ := hp
  cases l' with
  | nil => simp at hc
  | cons a t' => simpa using hc

/-- The trailing-whitespace pass of `jsTrim` keeps a prefix of its input. -/
theorem trimTail_isPrefix (x : JStr) :
    ((x.reverse.dropWhile isJsWs).reverse) <+: x := by
  rw [← List.reverse_suffix, List.reverse_reverse]
  exact List.dropWhile_suffix isJsWs

/-- `jsTrim` fixes any list with no leading and no trailing JS whitespace. -/
theorem jsTrim_eq_self (l : JStr)
    (hhead : ∀ c, l.head? = some c → isJsWs c = false)
    (hlast : ∀ c, l.getLast? = some c → isJsWs c = false) : jsTrim l = l := by
  unfold jsTrim
  rw [dropWhile_eq_self_of_head l hhead]
  rw [dropWhile_eq_self_of_head l.reverse (fun c hc => hlast c (by rwa [List.head?_reverse] at hc))]
  exact List.reverse_reverse l

/-- The normalized hostname never starts with JS whitespace. -/
theorem normalizeHostname_head_not_ws (raw : JStr) :
    ∀ c, (normalizeHostname raw).head? = some c → isJsWs c = false := by
  intro c hc
  -- Unwind stripTrailingDot: the result is a prefix of the lowercased trim.
  have hstrip : normalizeHostname raw <+: jsToLower (jsTrim raw) := by
    unfold normalizeHostname stripTrailingDot
    split_ifs with h
    · exact List.dropLast_prefix _
    · exact List.prefix_rfl
  have hlow : (jsToLower (jsTrim raw)).head? = some c := head?_of_isPrefix hstrip hc
  -- Unwind jsToLower: the head of the trim lowercases to c.
  rw [jsToLower, List.head?_map] at hlow
  obtain ⟨c0, hc0, hlc⟩ := Option.map_eq_some'.mp hlow
  -- Unwind jsTrim: its result is a prefix of the leading-whitespace drop.
  have htrim : jsTrim raw <+: raw.dropWhile isJsWs := trimTail_isPrefix _
  have hd : (raw.dropWhile isJsWs).head? = some c0 := head?_of_isPrefix htrim hc0
  have := dropWhile_head?_not (p := isJsWs) _ c0 hd
  rw [← hlc, isJsWs_lowerCode]
  exact this

/-- The normalized hostname is already lowercase. -/
theorem jsToLower_normalizeHostname (raw : JStr) :
    jsToLower (normalizeHostname raw) = normalizeHostname raw := by
  unfold normalizeHostname
  rw [jsToLower_stripTrailingDot, jsToLower_jsToLower]

/-- C8 (amended): `normalize` is idempotent on every input whose normalized
form does not end in a dot (which a second pass would strip) nor in JS
whitespace (which stripping a dot can expose to the second pass's trim);
on such inputs — every well-formed hostname — a second application is the
identity. -/
theorem normalizeHostname_idem (raw : JStr)
    (hlast : ∀ c, (normalizeHostname raw).getLast? = some c →
      c ≠ 46 ∧ isJsWs c = false) :
    normalizeHostname (normalizeHostname raw) = normalizeHostname raw := by
  have htrim : jsTrim (normalizeHostname raw) = normalizeHostname raw :=
    jsTrim_eq_self _ (normalizeHostname_head_not_ws raw) (fun c hc => (hlast c hc).2)
  have hdot : stripTrailingDot (normalizeHostname raw) = normalizeHostname raw := by
    unfold stripTrailingDot
    rw [if_neg]
    intro h46
    exact (hlast 46 h46).1 rfl
  conv_lhs => rw [normalizeHostname, htrim, jsToLower_normalizeHostname]
  exact hdot

/-- Witness for the amended C8: a second normalization fixes the normalized
form of a raw input with surrounding whitespace, uppercase letters and one
FQDN dot. -/
theorem normalizeHostname_idem_witness :
    normalizeHostname (normalizeHostname (js "  YouTube.COM. ")) =
      normalizeHostname (js "  YouTube.COM. ") := by
  refine normalizeHostname_idem _ ?_
  intro c hc
  have h109 : (normalizeHostname (js "  YouTube.COM. ")).getLast? = some 109 := by decide
  rw [h109, Option.some.injEq] at hc
  subst hc
  decide

end JustDetox
